import Mathlib

set_option linter.unusedVariables false

/-!
Verification development for the audio-course generator
(source files: src/components/AudioPlayer.tsx second half = utils/audioUtils,
src/App.tsx). The PCM/WAV codec and the orchestration core of App.tsx are
shallowly embedded below; bytes are modelled as natural numbers (every store
into a Uint8Array or DataView byte slot is taken modulo 256 by the encoders),
JavaScript strings as Lean strings, and the in-memory caches keyed by lecture
index as functions from Nat to Option.
-/

/-! ## PCM/WAV codec (utils/audioUtils) -/

/-- Value of one base64 alphabet character, as consumed by atob:
uppercase 0..25, lowercase 26..51, digits 52..61, plus 62, slash 63. -/
def b64Val (c : Char) : Option Nat :=
  if 'A' ≤ c ∧ c ≤ 'Z' then some (c.toNat - 65)
  else if 'a' ≤ c ∧ c ≤ 'z' then some (c.toNat - 97 + 26)
  else if '0' ≤ c ∧ c ≤ '9' then some (c.toNat - 48 + 52)
  else if c = '+' then some 62
  else if c = '/' then some 63
  else none

/-- Remove one or two trailing padding characters, as atob does when the
input length is a multiple of four. -/
def stripPad (cs : List Char) : List Char :=
  match cs.reverse with
  | '=' :: '=' :: rest => rest.reverse
  | '=' :: rest => rest.reverse
  | _ => cs

/-- Turn a list of six-bit values into bytes, three bytes per group of four
sextets; a trailing group of two or three sextets yields one or two bytes
with the leftover low bits discarded (forgiving-base64), and a trailing
group of one sextet is an error. -/
def sextetsToBytes : List Nat → Option (List Nat)
  | [] => some []
  | [a, b] => some [a * 4 + b / 16]
  | [a, b, c] => some [a * 4 + b / 16, b % 16 * 16 + c / 4]
  | a :: b :: c :: d :: rest =>
      (sextetsToBytes rest).map
        (fun tail => (a * 4 + b / 16) :: (b % 16 * 16 + c / 4) :: (c % 4 * 64 + d) :: tail)
  | [_] => none

/-- Embedding of decode (audioUtils): atob followed by reading each code
unit into a byte array. Returns none where atob throws. ASCII whitespace
stripping is not modelled (the synthesis payloads contain none). -/
def decode (base64 : String) : Option (List Nat) :=
  let cs := base64.data
  let cs := if cs.length % 4 = 0 then stripPad cs else cs
  if cs.length % 4 = 1 then none
  else (cs.mapM b64Val).bind sextetsToBytes

/-- Little-endian bytes of a 16-bit DataView store (setUint16 true). -/
def u16le (v : Nat) : List Nat := [v % 256, v / 256 % 256]

/-- Little-endian bytes of a 32-bit DataView store (setUint32 true). -/
def u32le (v : Nat) : List Nat :=
  [v % 256, v / 256 % 256, v / 65536 % 256, v / 16777216 % 256]

/-- Bytes written by writeString (one byte per character code). -/
def asciiBytes (s : String) : List Nat := s.data.map Char.toNat

/-- Embedding of pcmToWavBlob (audioUtils lines 173-205): the 44-byte
RIFF/WAVE header (fixed format: mono, 24000 Hz, 16-bit PCM, every
multi-byte field little-endian) followed by the raw PCM payload. The Blob
is modelled as its byte contents. -/
def pcmToWavBlob (pcmData : List Nat) : List Nat :=
  asciiBytes "RIFF" ++ (u32le (36 + pcmData.length) ++ (asciiBytes "WAVE" ++
  (asciiBytes "fmt " ++ (u32le 16 ++ (u16le 1 ++ (u16le 1 ++ (u32le 24000 ++
  (u32le (24000 * 1 * (16 / 8)) ++ (u16le (1 * (16 / 8)) ++ (u16le 16 ++
  (asciiBytes "data" ++ (u32le pcmData.length ++ pcmData))))))))))))

/-- Embedding of createWavBlob: decode the base64 payload, then wrap it. -/
def createWavBlob (base64 : String) : Option (List Nat) :=
  (decode base64).map pcmToWavBlob

/-- Byte-level concatenation performed by createMergedWavBlob via the
offset-advancing copy loop into the merged Uint8Array. -/
def mergedPcm (pcmChunks : List (List Nat)) : List Nat :=
  pcmChunks.foldl (fun acc chunk => acc ++ chunk) []

/-- Embedding of createMergedWavBlob after the per-chunk base64 decode:
concatenate the raw PCM chunks in order and wrap the result. -/
def createMergedWav (pcmChunks : List (List Nat)) : List Nat :=
  pcmToWavBlob (mergedPcm pcmChunks)

/-- Embedding of createMergedWavBlob (audioUtils lines 215-234) from the
base64 inputs: decode each, concatenate, wrap; none where atob throws. -/
def createMergedWavBlob (base64Audios : List String) : Option (List Nat) :=
  (base64Audios.mapM decode).map createMergedWav

/-- Signed 16-bit little-endian sample from two bytes. -/
def int16 (lo hi : Nat) : Int :=
  let v := lo % 256 + 256 * (hi % 256)
  if v < 32768 then (v : Int) else (v : Int) - 65536

/-- Sample number idx of the Int16Array view over the byte data. -/
def sampleAt (data : List Nat) (idx : Nat) : Int :=
  int16 (data.getD (2 * idx) 0) (data.getD (2 * idx + 1) 0)

/-- Embedding of decodeAudioData (audioUtils lines 146-163). The returned
AudioBuffer is its per-channel sample data, one list of rationals per
channel. Failure cases, all observed as a thrown exception at the call
sites: the Int16Array view construction throws when the byte length is not
a multiple of 2, and ctx.createBuffer throws (NotSupportedError) when the
channel count or the frame count is zero; the fractional frame count
length/channels is truncated by the unsigned-long conversion of
createBuffer, and the loop stores past the channel data length are
silently dropped, so the effective frame count is the floor. The sample
rate argument is carried in the buffer metadata only and does not affect
the sample data. -/
def decodeAudioData (data : List Nat) (sampleRate : Nat) (numChannels : Nat) :
    Option (List (List ℚ)) :=
  if data.length % 2 = 0 then
    let frameCount := data.length / 2 / numChannels
    if numChannels = 0 ∨ frameCount = 0 then none
    else
      some ((List.range numChannels).map (fun channel =>
        (List.range frameCount).map (fun i =>
          ((sampleAt data (i * numChannels + channel) : ℚ) / 32768))))
  else none

/-- Little-endian 32-bit read at a byte offset, for stating header facts. -/
def readU32le (l : List Nat) (off : Nat) : Nat :=
  l.getD off 0 + 256 * l.getD (off + 1) 0 + 65536 * l.getD (off + 2) 0 +
    16777216 * l.getD (off + 3) 0

/-- Little-endian 16-bit read at a byte offset. -/
def readU16le (l : List Nat) (off : Nat) : Nat :=
  l.getD off 0 + 256 * l.getD (off + 1) 0


/-! ## Data model of the orchestration core (src/App.tsx)

Lectures, per-lecture generation state and the playback engine state are
embedded as one record. The per-index React records and refs become
functions from Nat to Option; an absent entry is none. A JavaScript string
that is undefined-or-empty is modelled as the empty string wherever the
source only tests truthiness. Web Audio source nodes are modelled by the
numeric identifiers handed out by startPlayback; activeSources lists the
nodes that are started and neither stopped nor naturally finished, and
handlers records the onended closure attached to a node (the lecture index
it captured), none standing for a cleared handler. -/

/-- Update one key of an index-keyed cache. -/
def upd {α : Type} (f : Nat → Option α) (k : Nat) (v : Option α) : Nat → Option α :=
  fun j => if j = k then v else f j

/-- One lecture of the course (types.ts). A lecture fresh from the outline
has empty duration, script, summary and quiz. -/
structure Lecture where
  title : String
  duration : String
  goals : String
  script : String
  summary : String
  quiz : List String
  deriving DecidableEq, Repr

/-- Result shape of generateLectureDetails (LECTURE_DETAILS_SCHEMA). -/
structure Details where
  duration : String
  script : String
  summary : String
  quiz : List String
  deriving DecidableEq, Repr

/-- Per-lecture generation state (types.ts AudioState). -/
inductive AudioState where
  | idle
  | contentLoading
  | loading
  | loaded
  | error
  deriving DecidableEq, Repr

/-- Per-lecture video job state (App.tsx VideoState). An absent entry is
rendered as idle. -/
inductive VideoStatus where
  | idle
  | generating
  | ready (url : String)
  | error (msg : String)
  deriving DecidableEq, Repr

/-- The player snapshot consumed by the UI (types.ts PlayerState). -/
structure PlayerState where
  isLoading : Bool
  isPlaying : Bool
  progress : ℚ
  currentTime : ℚ
  duration : ℚ
  volume : ℚ
  error : Option String
  deriving DecidableEq, Repr

/-- Outcomes of the external generation calls, per lecture index for the
detail stage and per script for audio synthesis; none is a rejected call. -/
structure Env where
  details : Nat → Option Details
  synth : String → Option String

/-- The orchestration state of App.tsx restricted to the fields the claims
touch: the course, the per-lecture ui states, the byte and decoded-buffer
caches, derived durations, video job states and poll timer handles, the
playback session and the playback engine internals. -/
structure AppState where
  course : Option (String × List Lecture)
  lectureUi : Nat → Option AudioState
  audioDataCache : Nat → Option String
  audioBufferCache : Nat → Option (List (List ℚ))
  actualDurations : Nat → Option ℚ
  videoStates : Nat → Option VideoStatus
  pollingIntervals : Nat → Option Nat
  currentlyPlaying : Option Nat
  player : PlayerState
  lastPlayedIndex : Option Nat
  toasts : List String
  intentionallyStopped : Bool
  ctxReady : Bool
  currentSource : Option Nat
  activeSources : List Nat
  handlers : Nat → Option Nat
  nextSourceId : Nat
  playbackStartTime : ℚ
  playbackPausedTime : ℚ

/-- The initial player snapshot (App.tsx line 127). -/
def initialPlayer : PlayerState :=
  { isLoading := false, isPlaying := false, progress := 0, currentTime := 0,
    duration := 0, volume := 1, error := none }

/-- App state after the one-time audio context initialization (first user
gesture) and before any course exists. -/
def emptyState : AppState :=
  { course := none, lectureUi := fun _ => none, audioDataCache := fun _ => none,
    audioBufferCache := fun _ => none, actualDurations := fun _ => none,
    videoStates := fun _ => none, pollingIntervals := fun _ => none,
    currentlyPlaying := none, player := initialPlayer, lastPlayedIndex := none,
    toasts := [], intentionallyStopped := false, ctxReady := true,
    currentSource := none, activeSources := [], handlers := fun _ => none,
    nextSourceId := 0, playbackStartTime := 0, playbackPausedTime := 0 }

/-! ## Playback engine (App.tsx lines 164-202, 289-299) -/

/-- Embedding of stopPlayback (App.tsx lines 164-180): raise the
intentional-stop flag, clear the onended handler of the current source
before stopping and disconnecting it, and reset the player snapshot
(fully when clearPlayer). The progress animation frame is cancelled in the
source; the progress ticker is not part of the claims modelled here. -/
def stopPlayback (clearPlayer : Bool) (s : AppState) : AppState :=
  let s1 :=
    match s.currentSource with
    | some src =>
        { s with intentionallyStopped := true,
                 handlers := upd s.handlers src none,
                 activeSources := s.activeSources.erase src,
                 currentSource := none }
    | none => { s with intentionallyStopped := true }
  if clearPlayer then
    { s1 with
        currentlyPlaying := none, playbackPausedTime := 0,
        player := { s1.player with
                    isPlaying := false, progress := 0,
                    currentTime := 0, duration := 0, error := none } }
  else
    { s1 with player := { s1.player with isPlaying := false } }

/-- Duration in seconds of a decoded buffer (frames over the 24000 Hz rate). -/
def bufDuration (buffer : List (List ℚ)) : ℚ := ((buffer.headD []).length : ℚ) / 24000

/-- Embedding of startPlayback (App.tsx lines 182-202): no-op without an
audio context, otherwise stop the current playback, clear the
intentional-stop flag, create and start a fresh source node at the offset,
record the clock anchor, and attach the onended closure capturing the new
node and the lecture index. -/
def startPlayback (buffer : List (List ℚ)) (index : Nat) (offset : ℚ) (now : ℚ)
    (s : AppState) : AppState :=
  if s.ctxReady = false then s
  else
    let s1 := stopPlayback false s
    let src := s1.nextSourceId
    { s1 with
        intentionallyStopped := false,
        nextSourceId := src + 1,
        activeSources := src :: s1.activeSources,
        currentSource := some src,
        handlers := upd s1.handlers src (some index),
        playbackStartTime := now - offset,
        playbackPausedTime := offset,
        player := { s1.player with
                    isPlaying := true, isLoading := false,
                    duration := bufDuration buffer } }

/-- The device reports that source node src finished playing: the node
leaves the active set and its onended handler, if still attached, runs the
closure of App.tsx lines 196-201, which marks completion and records the
finished lecture index only when the node is still the current one and the
stop was not intentional. -/
def deviceEnded (src : Nat) (s : AppState) : AppState :=
  let s1 := { s with activeSources := s.activeSources.erase src }
  match s1.handlers src with
  | none => s1
  | some idx =>
      if s1.currentSource = some src ∧ s1.intentionallyStopped = false then
        { s1 with
            player := { s1.player with
                        isPlaying := false, progress := 1,
                        currentTime := s1.player.duration },
            lastPlayedIndex := some idx }
      else s1

/-- Scheduler-visible playback events: an app-initiated start, an
app-initiated intentional stop, and a device completion signal. -/
inductive EngineEvent where
  | start (buffer : List (List ℚ)) (index : Nat) (offset : ℚ) (now : ℚ)
  | stopIntent (clearPlayer : Bool)
  | ended (src : Nat)

/-- One playback event applied to the state. -/
def engineStep (s : AppState) (e : EngineEvent) : AppState :=
  match e with
  | .start buffer index offset now => startPlayback buffer index offset now s
  | .stopIntent clearPlayer => stopPlayback clearPlayer s
  | .ended src => deviceEnded src s

/-- A sequence of playback events applied in order. -/
def engineRun (s : AppState) (evs : List EngineEvent) : AppState :=
  evs.foldl engineStep s

/-! ## Per-lecture audio pipeline (App.tsx lines 204-299) -/

/-- Toast shown when audio synthesis fails for one lecture. -/
def audioFailToast (title : String) : String :=
  "Audio generation failed for \"" ++ title ++ "\"."

/-- Player error message of the lecture-selection catch blocks. -/
def playbackErrorMsg : String := "Audio failed to load."

/-- Embedding of generateSingleAudio (App.tsx lines 227-242): mark the
lecture loading, call synthesis on its script; on success store the bytes,
drop the stale decoded buffer and mark loaded, returning the bytes; on
failure mark error and toast, returning none. -/
def generateSingleAudio (env : Env) (lec : Lecture) (index : Nat) (s : AppState) :
    AppState × Option String :=
  let s1 := { s with lectureUi := upd s.lectureUi index (some .loading) }
  match env.synth lec.script with
  | some b64 =>
      ({ s1 with audioDataCache := upd s1.audioDataCache index (some b64),
                 audioBufferCache := upd s1.audioBufferCache index none,
                 lectureUi := upd s1.lectureUi index (some .loaded) }, some b64)
  | none =>
      ({ s1 with lectureUi := upd s1.lectureUi index (some .error),
                 toasts := s1.toasts ++ [audioFailToast lec.title] }, none)

/-- Decode a cached base64 payload into a playable buffer, as
decodeAudioData(decode(base64Audio), ctx, 24000, 1) does. -/
def decodeFull (b64 : String) : Option (List (List ℚ)) :=
  (decode b64).bind (fun bytes => decodeAudioData bytes 24000 1)

/-- Embedding of playAudioFromCache (App.tsx lines 204-225): use the
decoded buffer if cached, otherwise decode the cached bytes once and cache
the decode; record the actual duration and start playback at offset 0.
False signals the thrown error (no cached bytes, or decode failure). -/
def playAudioFromCache (index : Nat) (now : ℚ) (s : AppState) : AppState × Bool :=
  match s.audioBufferCache index with
  | some buffer =>
      let s1 := { s with
        actualDurations := upd s.actualDurations index (some (bufDuration buffer)) }
      (startPlayback buffer index 0 now s1, true)
  | none =>
      match s.audioDataCache index with
      | none => (s, false)
      | some b64 =>
          match decodeFull b64 with
          | none => (s, false)
          | some buffer =>
              let s1 := { s with
                audioBufferCache := upd s.audioBufferCache index (some buffer) }
              let s2 := { s1 with
                actualDurations := upd s1.actualDurations index (some (bufDuration buffer)) }
              (startPlayback buffer index 0 now s2, true)

/-- Embedding of handleSetLectureToPlay (App.tsx lines 244-287). Selecting
the current lecture toggles pause or resume (no-op while the player shows
an error); selecting a different lecture clears the session, marks the
player loading, resolves the bytes from the cache or by on-demand
synthesis, then decodes and starts playback at offset 0, surfacing a
player error when anything fails. -/
def handleSetLectureToPlay (env : Env) (lec : Lecture) (index : Nat) (now : ℚ)
    (s : AppState) : AppState :=
  if s.currentlyPlaying = some index then
    if s.player.error ≠ none then s
    else if s.player.isPlaying then
      stopPlayback false
        { s with playbackPausedTime :=
            s.playbackPausedTime + (now - s.playbackStartTime) }
    else
      match s.audioBufferCache index with
      | some buffer => startPlayback buffer index s.playbackPausedTime now s
      | none => s
  else
    let s1 := stopPlayback true s
    let s2 := { s1 with
                  currentlyPlaying := some index,
                  player := { s1.player with
                              isLoading := true,
                              currentTime := 0, progress := 0, error := none } }
    let cur := s2.audioDataCache index
    let gen :=
      if cur = none ∨ s2.lectureUi index = some .error then
        generateSingleAudio env lec index s2
      else (s2, cur)
    match gen.2 with
    | none =>
        { gen.1 with
            player := { (gen.1).player with
                        isLoading := false,
                        error := some playbackErrorMsg } }
    | some _ =>
        let played := playAudioFromCache index now gen.1
        if played.2 then played.1
        else
          { played.1 with
              player := { (played.1).player with
                          isLoading := false,
                          error := some playbackErrorMsg } }

/-- Embedding of the auto-advance effect (App.tsx lines 289-299): on a
recorded natural end for lecture i, select lecture i+1 through
handleSetLectureToPlay when it exists, otherwise fully clear the playback
session; then reset the recorded index. -/
def autoAdvanceEffect (env : Env) (now : ℚ) (s : AppState) : AppState :=
  match s.lastPlayedIndex, s.course with
  | some i, some (_, lectures) =>
      let s1 :=
        if h : i + 1 < lectures.length then
          handleSetLectureToPlay env (lectures.get ⟨i + 1, h⟩) (i + 1) now s
        else stopPlayback true s
      { s1 with lastPlayedIndex := none }
  | _, _ => s

/-! ## Content pipeline (App.tsx lines 352-426) and script editing (542-557) -/

/-- Toast shown when the detail or synthesis step of one pipeline task
fails (both failure points share this message). -/
def contentFailToast (title : String) : String :=
  "Failed to generate content for \"" ++ title ++ "\""

/-- Toast appended once after all pipeline tasks of one invocation settle. -/
def readyToast : String := "Your course is fully generated and ready!"

/-- Merge generated details into the lecture at its index, preserving the
outline fields, as the functional setCourse update does. -/
def mergeDetails (lec : Lecture) (d : Details) : Lecture :=
  { lec with duration := d.duration, script := d.script, summary := d.summary,
             quiz := d.quiz }

/-- One per-lecture pipeline task of populateAllLectures (App.tsx lines
398-421), run as an atomic state transition: generate details, merge them
in place, mark loading, synthesize audio from the generated script, store
the bytes and mark loaded; either failure marks this lecture error and
toasts, touching no other index. Note that the byte store here does not
delete a decoded buffer for the index. -/
def populateTask (env : Env) (index : Nat) (s : AppState) : AppState :=
  match s.course with
  | none => s
  | some (courseTitle, lectures) =>
      match lectures[index]? with
      | none => s
      | some lec =>
          match env.details index with
          | none =>
              { s with lectureUi := upd s.lectureUi index (some .error),
                       toasts := s.toasts ++ [contentFailToast lec.title] }
          | some d =>
              let s1 := { s with
                course := some (courseTitle, lectures.set index (mergeDetails lec d)),
                lectureUi := upd s.lectureUi index (some .loading) }
              match env.synth d.script with
              | none =>
                  { s1 with lectureUi := upd s1.lectureUi index (some .error),
                            toasts := s1.toasts ++ [contentFailToast lec.title] }
              | some b64 =>
                  { s1 with audioDataCache := upd s1.audioDataCache index (some b64),
                            lectureUi := upd s1.lectureUi index (some .loaded) }

/-- One invocation of populateAllLectures (App.tsx lines 397-423): the
source starts every per-lecture task concurrently under Promise.all; the
model applies the atomic task transitions in the scheduler order given by
the argument, then appends the single completion toast. -/
def populateAll (env : Env) (order : List Nat) (s : AppState) : AppState :=
  let s1 := order.foldl (fun acc i => populateTask env i acc) s
  { s1 with toasts := s1.toasts ++ [readyToast] }

/-- The guard of the effect that invokes populateAllLectures (App.tsx line
396): a course exists, has lectures, and the first lecture has no script
yet. The effect re-runs whenever the course object changes. -/
def populateGuard (s : AppState) : Bool :=
  match s.course with
  | some (_, lectures) =>
      decide (0 < lectures.length) &&
        (match lectures.get? 0 with
         | some l => l.script == ""
         | none => true)
  | none => false

/-- Embedding of handleUpdateLecture (App.tsx lines 542-557): replace the
lecture at the index; when the script text changed, drop the byte cache,
decoded buffer, derived duration and video job state of that index only
and re-run audio synthesis for it. -/
def handleUpdateLecture (env : Env) (index : Nat) (updatedLecture : Lecture)
    (s : AppState) : AppState :=
  match s.course with
  | none => s
  | some (courseTitle, lectures) =>
      match lectures[index]? with
      | none => s
      | some oldLec =>
          let s1 := { s with
            course := some (courseTitle, lectures.set index updatedLecture) }
          if oldLec.script ≠ updatedLecture.script then
            let s2 := { s1 with
              audioDataCache := upd s1.audioDataCache index none,
              audioBufferCache := upd s1.audioBufferCache index none,
              actualDurations := upd s1.actualDurations index none,
              videoStates := upd s1.videoStates index none }
            (generateSingleAudio env updatedLecture index s2).1
          else s1

/-- The synchronous prologue of handleGenerateCourse (App.tsx lines
364-373), run before the outline request is issued: stop and clear
playback, clear every poll timer, discard both audio caches and all
per-lecture ui state, durations and video job states, and drop the course. -/
def handleGenerateCoursePrologue (s : AppState) : AppState :=
  let s1 := stopPlayback true s
  { s1 with pollingIntervals := fun _ => none,
            audioDataCache := fun _ => none,
            audioBufferCache := fun _ => none,
            lectureUi := fun _ => none,
            actualDurations := fun _ => none,
            videoStates := fun _ => none,
            course := none }

/-! ## Video job poller (App.tsx lines 445-478) -/

/-- What the awaited getVideoOperationStatus call reported back to one
poll tick. -/
inductive PollResult where
  | notDone
  | doneWithUri (uri : String)
  | doneNoUri
  | doneErr (msg : Option String)
  | reqFailed (msg : String)

/-- Error message for a done operation carrying no result URI. -/
def videoNoUriMsg : String := "Video generated, but no URI found."

/-- Fallback error message for a done operation with no error message. -/
def videoGenericErrMsg : String := "Video generation finished with an error."

/-- The continuation of one poll tick of pollForVideo (App.tsx lines
450-476), entered when the awaited status call resolves: when done, clear
the timer handle and either record the ready state with the key-authorized
URL or fall into the catch, which clears the handle and records the error
state. The key argument is process.env.API_KEY; the api-key-invalid
re-trigger inside the catch is outside the modelled claims. There is no
check that the timer handle still exists before any of these writes. -/
def pollTickContinuation (key : String) (index : Nat) (r : PollResult)
    (s : AppState) : AppState :=
  match r with
  | .notDone => s
  | .doneWithUri uri =>
      let s1 := { s with pollingIntervals := upd s.pollingIntervals index none }
      if key ≠ "" then
        { s1 with
            videoStates := upd s1.videoStates index (some (.ready (uri ++ "&key=" ++ key))) }
      else
        { s1 with videoStates := upd s1.videoStates index (some (.error videoNoUriMsg)) }
  | .doneNoUri =>
      let s1 := { s with pollingIntervals := upd s.pollingIntervals index none }
      { s1 with videoStates := upd s1.videoStates index (some (.error videoNoUriMsg)) }
  | .doneErr msg =>
      let s1 := { s with pollingIntervals := upd s.pollingIntervals index none }
      { s1 with
          videoStates := upd s1.videoStates index (some (.error (msg.getD videoGenericErrMsg))) }
  | .reqFailed msg =>
      let s1 := { s with pollingIntervals := upd s.pollingIntervals index none }
      { s1 with videoStates := upd s1.videoStates index (some (.error msg)) }

/-! ## Bulk export (App.tsx lines 574-634) -/

/-- Timeout error message naming the lecture (App.tsx line 596). -/
def timeoutToast (title : String) : String := "Timed out waiting for audio: " ++ title

/-- The bounded wait loop of handleDownloadAll: one cache check per
one-second tick, rejecting once the attempt counter exceeds 60. cacheAt
gives the byte-cache content for the lecture at each tick (an
empty-string payload is falsy in every check of the source and is
modelled as none). The fuel argument only bounds the recursion; started
with fuel 61 at counter 0, the fuel runs out exactly at counter 61 where
the counter test of the source rejects anyway, so the two agree. -/
def pollLoopFuel : Nat → (Nat → Option String) → Nat → Option String
  | 0, cacheAt, attempts =>
      (match cacheAt attempts with
       | some b => some b
       | none => none)
  | fuel + 1, cacheAt, attempts =>
      (match cacheAt attempts with
       | some b => some b
       | none =>
           if attempts > 60 then none
           else pollLoopFuel fuel cacheAt (attempts + 1))

/-- The wait loop started at attempt counter 0. -/
def exportWait (cacheAt : Nat → Option String) : Option String :=
  pollLoopFuel 61 cacheAt 0

/-- Resolve the payload for one lecture during export: bytes already
cached and marked loaded are used directly; otherwise the orchestrator
only waits on the bounded poll (there is no synthesis call anywhere in
handleDownloadAll), failing with the timeout error naming the lecture. -/
def exportResolveOne (s : AppState) (cacheAt : Nat → Option String) (i : Nat)
    (lec : Lecture) : Except String String :=
  match s.audioDataCache i with
  | some b =>
      if s.lectureUi i = some .loaded then .ok b
      else
        match exportWait cacheAt with
        | some b2 => .ok b2
        | none => .error (timeoutToast lec.title)
  | none =>
      match exportWait cacheAt with
      | some b2 => .ok b2
      | none => .error (timeoutToast lec.title)

/-- Collect the payloads lecture by lecture in order; the first failure
aborts the whole export. -/
def exportCollect (s : AppState) (cacheAt : Nat → Nat → Option String) :
    List (Nat × Lecture) → Except String (List String)
  | [] => .ok []
  | (i, lec) :: rest =>
      match exportResolveOne s (cacheAt i) i lec with
      | .error e => .error e
      | .ok b => (exportCollect s cacheAt rest).map (fun bs => b :: bs)

/-- Embedding of handleDownloadAll (App.tsx lines 574-634) for a course
with the given lectures: resolve every payload in lecture order, then
merge them through createMergedWavBlob; any error yields no artifact. -/
def handleDownloadAll (s : AppState) (cacheAt : Nat → Nat → Option String)
    (lectures : List Lecture) : Except String (List Nat) :=
  match exportCollect s cacheAt lectures.enum with
  | .error e => .error e
  | .ok datas =>
      match createMergedWavBlob datas with
      | some wav => .ok wav
      | none => .error "invalid base64 payload"

/-- The coherence invariant of C10: whenever both caches hold an entry for
the same index, the decoded buffer is the decode of the cached bytes. -/
def Coherent (s : AppState) : Prop :=
  ∀ k buffer bytes, s.audioBufferCache k = some buffer →
    s.audioDataCache k = some bytes → decodeFull bytes = some buffer

/-- Engine invariant backing C5: the started-and-unfinished source nodes
are pairwise distinct and every one of them is the current node, so at
most one output node is ever active. -/
def EngineInv (s : AppState) : Prop :=
  s.activeSources.Nodup ∧ ∀ x ∈ s.activeSources, s.currentSource = some x

/-! ## Concrete fixtures used by the witnesses and counterexamples -/

/-- A fully generated lecture. -/
def lecA : Lecture :=
  { title := "Lecture One", duration := "5 min", goals := "goals A",
    script := "script A", summary := "sum A", quiz := [] }

/-- A second fully generated lecture. -/
def lecB : Lecture :=
  { title := "Lecture Two", duration := "5 min", goals := "goals B",
    script := "script B", summary := "sum B", quiz := [] }

/-- A third fully generated lecture. -/
def lecC : Lecture :=
  { title := "Lecture Three", duration := "5 min", goals := "goals C",
    script := "script C", summary := "sum C", quiz := [] }

/-- An outline-only lecture (no script yet). -/
def outlineLec1 : Lecture :=
  { title := "Lecture One", duration := "", goals := "goals A",
    script := "", summary := "", quiz := [] }

/-- A second outline-only lecture. -/
def outlineLec2 : Lecture :=
  { title := "Lecture Two", duration := "", goals := "goals B",
    script := "", summary := "", quiz := [] }

/-- An environment whose calls all succeed; the synthesized payload is the
base64 of the two bytes 255, 255 (one valid mono frame). -/
def envOk : Env :=
  { details := fun _ =>
      some { duration := "5 min", script := "generated script", summary := "sum",
             quiz := [] },
    synth := fun _ => some "//8=" }

/-- An environment used for the C10 counterexample: details succeed and
synthesis returns a fresh payload different from any cached one. -/
def envNew : Env :=
  { details := fun _ =>
      some { duration := "5 min", script := "edited script", summary := "sum",
             quiz := [] },
    synth := fun _ => some "BBBB" }

/-- State holding a fresh two-lecture outline, as left by
handleGenerateCourse after the outline resolves. -/
def sOutline2 : AppState :=
  { emptyState with
      course := some ("Course", [outlineLec1, outlineLec2]),
      lectureUi := upd (upd (fun _ => none) 0 (some .contentLoading)) 1
        (some .contentLoading) }

/-- State with a three-lecture course whose first lecture just finished
playing naturally. -/
def sPlayed0 : AppState :=
  { emptyState with
      course := some ("Course", [lecA, lecB, lecC]),
      currentlyPlaying := some 0,
      lastPlayedIndex := some 0 }

/-- State with a three-lecture course whose last lecture just finished
playing naturally. -/
def sPlayed2 : AppState :=
  { emptyState with
      course := some ("Course", [lecA, lecB, lecC]),
      currentlyPlaying := some 2,
      lastPlayedIndex := some 2 }

/-- State with an old course, a generating video job for lecture 0 with a
live poll timer, and cached audio bytes. -/
def sOldCourse : AppState :=
  { emptyState with
      course := some ("Old Course", [lecA]),
      videoStates := upd (fun _ => none) 0 (some .generating),
      pollingIntervals := upd (fun _ => none) 0 (some 7),
      audioDataCache := upd (fun _ => none) 0 (some "QUJD") }

/-- Export state: lecture 0 has cached bytes but its pipeline state is
still loading, not loaded. -/
def sExportStuck : AppState :=
  { emptyState with
      course := some ("Course", [lecB]),
      audioDataCache := upd (fun _ => none) 0 (some "AAEC"),
      lectureUi := upd (fun _ => none) 0 (some .loading) }

/-- Cache evolution during export where the bytes of every lecture are
present at every tick. -/
def cacheAtPresent : Nat → Nat → Option String := fun _ _ => some "AAEC"

/-- State for the C10 counterexample: lecture 0 has both a cached payload
and a decoded buffer (coherent before the pipeline store). -/
def sBothCaches : AppState :=
  { emptyState with
      course := some ("Course", [lecA]),
      audioDataCache := upd (fun _ => none) 0 (some "AAAA"),
      audioBufferCache := upd (fun _ => none) 0 (some [[(1 : ℚ) / 2]]) }

/-! ## Lemmas for the codec -/

theorem mergedPcm_eq_join (chunks : List (List Nat)) : mergedPcm chunks = chunks.flatten := by
  suffices h : ∀ (cs : List (List Nat)) (acc : List Nat),
      cs.foldl (fun a c => a ++ c) acc = acc ++ cs.flatten by
    simpa [mergedPcm] using h chunks []
  intro cs
  induction cs with
  | nil => intro acc; simp
  | cons c cs ih => intro acc; simp [ih, List.append_assoc]

theorem pcmToWavBlob_drop44 (pcm : List Nat) : (pcmToWavBlob pcm).drop 44 = pcm := rfl

/-- C1: createMergedWavBlob concatenates the raw PCM payloads in order with
no resampling, padding or framing: the data section (bytes 44 onward) of
the merged WAV equals the byte-level concatenation of the inputs, and for
two inputs, splitting the data section at the length of the first recovers
both unchanged. -/
theorem c1_merge_data_section (chunks : List (List Nat)) (a b : List Nat) :
    (createMergedWav chunks).drop 44 = chunks.flatten ∧
    ((createMergedWav [a, b]).drop 44).take a.length = a ∧
    ((createMergedWav [a, b]).drop 44).drop a.length = b := by
  refine ⟨?_, ?_, ?_⟩
  · rw [createMergedWav, pcmToWavBlob_drop44, mergedPcm_eq_join]
  · rw [createMergedWav, pcmToWavBlob_drop44, mergedPcm_eq_join]
    simp [List.take_left]
  · rw [createMergedWav, pcmToWavBlob_drop44, mergedPcm_eq_join]
    simp [List.drop_left]

theorem readU32le_u32le (v : Nat) (h : v < 4294967296) : readU32le (u32le v) 0 = v := by
  have e : readU32le (u32le v) 0 = v % 256 + 256 * (v / 256 % 256) +
      65536 * (v / 65536 % 256) + 16777216 * (v / 16777216 % 256) := rfl
  rw [e]; omega

theorem readU16le_u16le (v : Nat) (h : v < 65536) : readU16le (u16le v) 0 = v := by
  have e : readU16le (u16le v) 0 = v % 256 + 256 * (v / 256 % 256) := rfl
  rw [e]; omega

/-- C2: for every valid base64 string, the WAV built by createWavBlob is the
44-byte canonical header followed by the decoded payload: bytes 0-3 are
ASCII RIFF, bytes 8-11 ASCII WAVE, bytes 4-7 are the little-endian encoding
of the chunkSize 36 plus the payload length (whose little-endian read gives
back exactly that value), bytes 40-43 the little-endian dataSize equal to
the payload length, bytes 44 onward the decoded payload unchanged, and the
fixed fields declare mono (channel count 1 at bytes 22-23), 24000 Hz
(bytes 24-27) and 16 bits per sample (bytes 34-35). -/
theorem c2_wav_header (x : String) (pcm : List Nat)
    (h : decode x = some pcm) (hlen : 36 + pcm.length < 4294967296) :
    createWavBlob x = some (pcmToWavBlob pcm) ∧
    (pcmToWavBlob pcm).length = 44 + pcm.length ∧
    (pcmToWavBlob pcm).take 4 = asciiBytes "RIFF" ∧
    ((pcmToWavBlob pcm).drop 8).take 4 = asciiBytes "WAVE" ∧
    ((pcmToWavBlob pcm).drop 4).take 4 = u32le (36 + pcm.length) ∧
    readU32le (u32le (36 + pcm.length)) 0 = 36 + pcm.length ∧
    ((pcmToWavBlob pcm).drop 40).take 4 = u32le pcm.length ∧
    readU32le (u32le pcm.length) 0 = pcm.length ∧
    (pcmToWavBlob pcm).drop 44 = pcm ∧
    ((pcmToWavBlob pcm).drop 22).take 2 = u16le 1 ∧
    ((pcmToWavBlob pcm).drop 24).take 4 = u32le 24000 ∧
    ((pcmToWavBlob pcm).drop 34).take 2 = u16le 16 := by
  refine ⟨by rw [createWavBlob, h]; rfl, ?_, rfl, rfl, rfl,
    readU32le_u32le _ hlen, rfl, readU32le_u32le _ (by omega), rfl, rfl, rfl, rfl⟩
  simp [pcmToWavBlob, asciiBytes, u32le, u16le]
  omega

/-- Witness for C2 at the concrete base64 input AAEC, which decodes to the
three bytes 0, 1, 2. -/
theorem c2_wav_header_witness :
    decode "AAEC" = some [0, 1, 2] ∧ 36 + 3 < 4294967296 ∧
    (createWavBlob "AAEC" = some (pcmToWavBlob [0, 1, 2]) ∧
      ((pcmToWavBlob [0, 1, 2]).drop 4).take 4 = u32le 39 ∧
      readU32le (u32le 39) 0 = 39 ∧
      ((pcmToWavBlob [0, 1, 2]).drop 40).take 4 = u32le 3) := by
  have h : decode "AAEC" = some [0, 1, 2] := by decide
  have hl : 36 + ([0, 1, 2] : List Nat).length < 4294967296 := by decide
  have main := c2_wav_header "AAEC" [0, 1, 2] h hl
  exact ⟨h, by decide, main.1, main.2.2.2.2.1, main.2.2.2.2.2.1,
    main.2.2.2.2.2.2.1⟩

theorem sampleAt_bounds (data : List Nat) (idx : Nat) :
    -32768 ≤ sampleAt data idx ∧ sampleAt data idx ≤ 32767 := by
  simp only [sampleAt, int16]
  split <;> omega

theorem sample_div_bounds (x : Int) (h1 : -32768 ≤ x) (h2 : x ≤ 32767) :
    (-1 : ℚ) ≤ (x : ℚ) / 32768 ∧ (x : ℚ) / 32768 ≤ 1 := by
  constructor
  · rw [le_div_iff₀ (by norm_num : (0 : ℚ) < 32768)]
    calc ((-1 : ℚ) * 32768) = ((-32768 : Int) : ℚ) := by norm_num
    _ ≤ (x : ℚ) := by exact_mod_cast h1
  · rw [div_le_one (by norm_num : (0 : ℚ) < 32768)]
    calc (x : ℚ) ≤ ((32767 : Int) : ℚ) := by exact_mod_cast h2
    _ ≤ 32768 := by norm_num

/-- C3 counterexample: the claim asserts that samplesFromPcm succeeds on
inputs of any byte length, truncating a trailing partial frame, so on the
single byte 0 it would return a zero-frame buffer; the code instead throws
(new Int16Array on a 1-byte buffer raises a RangeError), modelled as none. -/
theorem c3_counterexample_odd_byte : decodeAudioData [0] 24000 1 = none := rfl

/-- C3 (amended): decodeAudioData succeeds exactly when the byte length is
even and at least one complete frame exists; then the buffer has one entry
per channel, each with floor(byteLength/2/channels) frames, and channel ch
at frame i holds the signed little-endian 16-bit integer at byte offset
2*(i*channels+ch) divided by 32768, a value in the interval from -1 to 1. -/
theorem c3_samples_amended (data : List Nat) (sampleRate : Nat) (c : Nat)
    (h2 : data.length % 2 = 0) (hc : 0 < c) (hf : 0 < data.length / 2 / c) :
    ∃ buf, decodeAudioData data sampleRate c = some buf ∧
      buf.length = c ∧
      ∀ ch, ch < c →
        (buf.getD ch []).length = data.length / 2 / c ∧
        ∀ i, i < data.length / 2 / c →
          (buf.getD ch []).getD i 0 = (sampleAt data (i * c + ch) : ℚ) / 32768 ∧
          (-1 : ℚ) ≤ (buf.getD ch []).getD i 0 ∧ (buf.getD ch []).getD i 0 ≤ 1 := by
  refine ⟨(List.range c).map (fun channel =>
    (List.range (data.length / 2 / c)).map (fun i =>
      ((sampleAt data (i * c + channel) : ℚ) / 32768))), ?_, ?_, ?_⟩
  · simp only [decodeAudioData, h2, if_pos]
    rw [if_neg (by omega)]
  · simp
  · intro ch hch
    have hgd : ((List.range c).map (fun channel =>
        (List.range (data.length / 2 / c)).map (fun i =>
          ((sampleAt data (i * c + channel) : ℚ) / 32768)))).getD ch [] =
        (List.range (data.length / 2 / c)).map (fun i =>
          ((sampleAt data (i * c + ch) : ℚ) / 32768)) := by
      rw [List.getD_eq_getElem?_getD, List.getElem?_map]
      simp [List.getElem?_range, hch]
    rw [hgd]
    refine ⟨by simp, ?_⟩
    intro i hi
    have hgd2 : ((List.range (data.length / 2 / c)).map (fun i =>
        ((sampleAt data (i * c + ch) : ℚ) / 32768))).getD i 0 =
        (sampleAt data (i * c + ch) : ℚ) / 32768 := by
      rw [List.getD_eq_getElem?_getD, List.getElem?_map]
      simp [List.getElem?_range, hi]
    rw [hgd2]
    have hb := sampleAt_bounds data (i * c + ch)
    exact ⟨rfl, (sample_div_bounds _ hb.1 hb.2).1, (sample_div_bounds _ hb.1 hb.2).2⟩

/-- Witness for the amended C3 at four bytes forming two mono frames, the
samples 0x1234 = 4660 and -1. -/
theorem c3_samples_amended_witness :
    ([52, 18, 255, 255] : List Nat).length % 2 = 0 ∧ 0 < 1 ∧
    0 < ([52, 18, 255, 255] : List Nat).length / 2 / 1 ∧
    (∃ buf, decodeAudioData [52, 18, 255, 255] 24000 1 = some buf ∧
      buf.length = 1 ∧
      ∀ ch, ch < 1 →
        (buf.getD ch []).length = ([52, 18, 255, 255] : List Nat).length / 2 / 1 ∧
        ∀ i, i < ([52, 18, 255, 255] : List Nat).length / 2 / 1 →
          (buf.getD ch []).getD i 0 =
            (sampleAt [52, 18, 255, 255] (i * 1 + ch) : ℚ) / 32768 ∧
          (-1 : ℚ) ≤ (buf.getD ch []).getD i 0 ∧ (buf.getD ch []).getD i 0 ≤ 1) :=
  ⟨by decide, by decide, by decide,
    c3_samples_amended [52, 18, 255, 255] 24000 1 (by decide) (by decide) (by decide)⟩

/-! ## Lemmas for the playback engine -/

theorem stopPlayback_current (b : Bool) (s : AppState) :
    (stopPlayback b s).currentSource = none := by
  cases hc : s.currentSource <;> cases b <;> simp [stopPlayback, hc]

theorem stopPlayback_flag (b : Bool) (s : AppState) :
    (stopPlayback b s).intentionallyStopped = true := by
  cases hc : s.currentSource <;> cases b <;> simp [stopPlayback, hc]

theorem stopPlayback_lastPlayed (b : Bool) (s : AppState) :
    (stopPlayback b s).lastPlayedIndex = s.lastPlayedIndex := by
  cases hc : s.currentSource <;> cases b <;> simp [stopPlayback, hc]

theorem stopPlayback_active_nil (b : Bool) (s : AppState) (h : EngineInv s) :
    (stopPlayback b s).activeSources = [] := by
  rcases h with ⟨hnd, hall⟩
  cases hc : s.currentSource with
  | none =>
      have hempty : s.activeSources = [] := by
        cases hA : s.activeSources with
        | nil => rfl
        | cons a t =>
            have ha := hall a (by simp [hA])
            rw [hc] at ha
            exact absurd ha (by simp)
      cases b <;> simp [stopPlayback, hc, hempty]
  | some src =>
      have hx : ∀ x ∈ s.activeSources, x = src := by
        intro x hmem
        have := hall x hmem
        rw [hc] at this
        exact (Option.some.inj this).symm
      have hempty : s.activeSources.erase src = [] := by
        cases hA : s.activeSources with
        | nil => rfl
        | cons a t =>
            have ha : a = src := hx a (by simp [hA])
            have ht : t = [] := by
              cases hT : t with
              | nil => rfl
              | cons a2 t2 =>
                  have h2 : a2 = src := hx a2 (by simp [hA, hT])
                  rw [hA, hT, ha, h2] at hnd
                  simp at hnd
            rw [ha, ht]
            simp
      cases b <;> simp [stopPlayback, hc, hempty]

theorem engineInv_stop (b : Bool) (s : AppState) (h : EngineInv s) :
    EngineInv (stopPlayback b s) := by
  refine ⟨?_, ?_⟩
  · rw [stopPlayback_active_nil b s h]; exact List.nodup_nil
  · rw [stopPlayback_active_nil b s h]; intro x hx; simp at hx

theorem engineInv_start (buffer : List (List ℚ)) (index : Nat) (offset now : ℚ)
    (s : AppState) (h : EngineInv s) :
    EngineInv (startPlayback buffer index offset now s) := by
  cases hr : s.ctxReady with
  | false => simpa [startPlayback, hr] using h
  | true =>
      have hemp := stopPlayback_active_nil false s h
      refine ⟨?_, ?_⟩
      · simp [startPlayback, hr, hemp]
      · intro x hx
        simp [startPlayback, hr, hemp] at hx
        simp [startPlayback, hr, hx]

theorem engineInv_ended (src : Nat) (s : AppState) (h : EngineInv s) :
    EngineInv (deviceEnded src s) := by
  rcases h with ⟨hnd, hall⟩
  have base : EngineInv { s with activeSources := s.activeSources.erase src } :=
    ⟨hnd.erase src, fun x hx => hall x (List.mem_of_mem_erase hx)⟩
  unfold deviceEnded
  cases hh : s.handlers src with
  | none => simpa [hh] using base
  | some idx =>
      simp only [hh]
      split
      · exact base
      · exact base

theorem engineInv_run (s : AppState) (evs : List EngineEvent) (h : EngineInv s) :
    EngineInv (engineRun s evs) := by
  induction evs generalizing s with
  | nil => simpa [engineRun] using h
  | cons e evs ih =>
      have h1 : EngineInv (engineStep s e) := by
        cases e with
        | start buffer index offset now => exact engineInv_start buffer index offset now s h
        | stopIntent b => exact engineInv_stop b s h
        | ended src => exact engineInv_ended src s h
      simpa [engineRun] using ih (engineStep s e) h1

theorem engineInv_emptyState : EngineInv emptyState :=
  ⟨List.nodup_nil, by intro x hx; simp [emptyState] at hx⟩

theorem engineInv_length_le_one (s : AppState) (h : EngineInv s) :
    s.activeSources.length ≤ 1 := by
  rcases h with ⟨hnd, hall⟩
  cases hA : s.activeSources with
  | nil => simp
  | cons a t =>
      cases hT : t with
      | nil => simp
      | cons a2 t2 =>
          have ha := hall a (by simp [hA])
          have h2 := hall a2 (by simp [hA, hT])
          rw [ha] at h2
          have : a = a2 := Option.some.inj h2
          rw [hA, hT, this] at hnd
          simp at hnd

theorem deviceEnded_stopped (src : Nat) (s : AppState)
    (h : s.intentionallyStopped = true) :
    (deviceEnded src s).lastPlayedIndex = s.lastPlayedIndex ∧
    (deviceEnded src s).intentionallyStopped = true := by
  unfold deviceEnded
  cases hh : s.handlers src with
  | none => simp [hh, h]
  | some idx =>
      simp only [hh]
      split
      · rename_i hcond
        rw [h] at hcond
        exact absurd hcond.2 (by simp)
      · simp [h]

theorem endedRun_stopped (s : AppState) (ends : List Nat)
    (h : s.intentionallyStopped = true) :
    (engineRun s (ends.map EngineEvent.ended)).lastPlayedIndex = s.lastPlayedIndex := by
  induction ends generalizing s with
  | nil => simp [engineRun]
  | cons e es ih =>
      have hstep := deviceEnded_stopped e s h
      have := ih (deviceEnded e s) hstep.2
      simpa [engineRun, engineStep, hstep.1] using this

theorem deviceEnded_not_current (src : Nat) (s : AppState)
    (h : s.currentSource ≠ some src) :
    (deviceEnded src s).lastPlayedIndex = s.lastPlayedIndex := by
  unfold deviceEnded
  cases hh : s.handlers src with
  | none => simp [hh]
  | some idx =>
      simp only [hh]
      split
      · rename_i hcond
        exact absurd hcond.1 h
      · simp

/-- C5: intentional stops never produce the natural-end completion signal,
and playback switches keep at most one output node active. First, along
any sequence of playback events from the initial state, at most one source
node is ever active. Second, after an intentional stopPlayback, any
sequence of device completion signals leaves the auto-advance trigger
lastPlayedIndex untouched. Third, after starting playback of a new
lecture, a completion signal for any node other than the new current one
(in particular the stopped previous node) leaves the trigger untouched. -/
theorem c5_intentional_stop_no_advance (evs : List EngineEvent) (clearPlayer : Bool)
    (ends : List Nat) :
    (engineRun emptyState evs).activeSources.length ≤ 1 ∧
    (engineRun (stopPlayback clearPlayer (engineRun emptyState evs))
        (ends.map EngineEvent.ended)).lastPlayedIndex =
      (engineRun emptyState evs).lastPlayedIndex ∧
    (∀ (buffer : List (List ℚ)) (index : Nat) (offset now : ℚ) (src : Nat),
      (startPlayback buffer index offset now (engineRun emptyState evs)).currentSource ≠
          some src →
      (deviceEnded src
          (startPlayback buffer index offset now (engineRun emptyState evs))).lastPlayedIndex =
        (startPlayback buffer index offset now (engineRun emptyState evs)).lastPlayedIndex) := by
  have hinv := engineInv_run emptyState evs engineInv_emptyState
  refine ⟨engineInv_length_le_one _ hinv, ?_, ?_⟩
  · rw [endedRun_stopped _ _ (stopPlayback_flag _ _)]
    exact stopPlayback_lastPlayed _ _
  · intro buffer index offset now src hne
    exact deviceEnded_not_current src _ hne

/-- Witness for C5: one lecture starts, playback switches to a second
lecture, and a late completion signal for the first node changes nothing. -/
theorem c5_intentional_stop_no_advance_witness :
    (engineRun emptyState [EngineEvent.start [[0]] 0 0 0]).activeSources.length ≤ 1 ∧
    (startPlayback [[0]] 1 0 0
        (engineRun emptyState [EngineEvent.start [[0]] 0 0 0])).currentSource ≠ some 0 ∧
    (deviceEnded 0
        (startPlayback [[0]] 1 0 0
          (engineRun emptyState [EngineEvent.start [[0]] 0 0 0]))).lastPlayedIndex =
      (startPlayback [[0]] 1 0 0
        (engineRun emptyState [EngineEvent.start [[0]] 0 0 0])).lastPlayedIndex := by
  have main := c5_intentional_stop_no_advance [EngineEvent.start [[0]] 0 0 0] true [0]
  exact ⟨main.1, by decide, main.2.2 [[0]] 1 0 0 0 (by decide)⟩

/-- C7: saving an edit whose script text changed invalidates exactly the
edited lecture: its byte cache becomes the fresh synthesis result, its
decoded buffer, derived duration and video job state are removed, its
pipeline state reflects the re-run synthesis (loaded on success, error on
failure), and every other index keeps its caches and states unchanged; an
edit leaving the script unchanged invalidates nothing. -/
theorem c7_edit_invalidation (env : Env) (s : AppState) (courseTitle : String)
    (lectures : List Lecture) (k : Nat) (updated oldLec : Lecture)
    (hc : s.course = some (courseTitle, lectures))
    (hget : lectures[k]? = some oldLec) :
    (updated.script ≠ oldLec.script →
      (handleUpdateLecture env k updated s).audioDataCache k = env.synth updated.script ∧
      (handleUpdateLecture env k updated s).audioBufferCache k = none ∧
      (handleUpdateLecture env k updated s).actualDurations k = none ∧
      (handleUpdateLecture env k updated s).videoStates k = none ∧
      (handleUpdateLecture env k updated s).lectureUi k =
        some (if (env.synth updated.script).isSome then AudioState.loaded
              else AudioState.error) ∧
      (∀ j, j ≠ k →
        (handleUpdateLecture env k updated s).audioDataCache j = s.audioDataCache j ∧
        (handleUpdateLecture env k updated s).audioBufferCache j = s.audioBufferCache j ∧
        (handleUpdateLecture env k updated s).actualDurations j = s.actualDurations j ∧
        (handleUpdateLecture env k updated s).videoStates j = s.videoStates j ∧
        (handleUpdateLecture env k updated s).lectureUi j = s.lectureUi j)) ∧
    (updated.script = oldLec.script →
      (handleUpdateLecture env k updated s).audioDataCache = s.audioDataCache ∧
      (handleUpdateLecture env k updated s).audioBufferCache = s.audioBufferCache ∧
      (handleUpdateLecture env k updated s).actualDurations = s.actualDurations ∧
      (handleUpdateLecture env k updated s).videoStates = s.videoStates ∧
      (handleUpdateLecture env k updated s).lectureUi = s.lectureUi) := by
  constructor
  · intro hne
    have hne2 : oldLec.script ≠ updated.script := fun e => hne e.symm
    cases hsyn : env.synth updated.script with
    | some b =>
        simp only [handleUpdateLecture, hc, hget, generateSingleAudio, hsyn, if_pos hne2]
        refine ⟨by simp [upd], by simp [upd], by simp [upd], by simp [upd],
          by simp [upd], ?_⟩
        intro j hj
        exact ⟨by simp [upd, hj], by simp [upd, hj], by simp [upd, hj],
          by simp [upd, hj], by simp [upd, hj]⟩
    | none =>
        simp only [handleUpdateLecture, hc, hget, generateSingleAudio, hsyn, if_pos hne2]
        refine ⟨by simp [upd], by simp [upd], by simp [upd], by simp [upd],
          by simp [upd], ?_⟩
        intro j hj
        exact ⟨by simp [upd, hj], by simp [upd, hj], by simp [upd, hj],
          by simp [upd, hj], by simp [upd, hj]⟩
  · intro heq
    have hnn : ¬ (oldLec.script ≠ updated.script) := by simp [heq]
    simp [handleUpdateLecture, hc, hget, if_neg hnn]

/-- Witness for C7: editing the script of lecture 1 in a two-lecture
course invalidates and regenerates only lecture 1. -/
theorem c7_edit_invalidation_witness :
    ({ lecB with script := "edited" } : Lecture).script ≠ lecB.script ∧
    ((handleUpdateLecture envOk 1 { lecB with script := "edited" }
        { emptyState with course := some ("Course", [lecA, lecB]) }).audioDataCache 1 =
      envOk.synth "edited" ∧
    (handleUpdateLecture envOk 1 { lecB with script := "edited" }
        { emptyState with course := some ("Course", [lecA, lecB]) }).videoStates 1 = none ∧
    (handleUpdateLecture envOk 1 { lecB with script := "edited" }
        { emptyState with course := some ("Course", [lecA, lecB]) }).audioDataCache 0 =
      ({ emptyState with course := some ("Course", [lecA, lecB]) } : AppState).audioDataCache 0) := by
  have main := c7_edit_invalidation envOk
    { emptyState with course := some ("Course", [lecA, lecB]) } "Course" [lecA, lecB] 1
    { lecB with script := "edited" } lecB rfl rfl
  have hne : ({ lecB with script := "edited" } : Lecture).script ≠ lecB.script := by decide
  have h1 := main.1 hne
  exact ⟨hne, h1.1, h1.2.2.2.1, (h1.2.2.2.2.2 0 (by decide)).1⟩

theorem stopPlayback_audioDataCache (b : Bool) (s : AppState) :
    (stopPlayback b s).audioDataCache = s.audioDataCache := by
  cases hc : s.currentSource <;> cases b <;> simp [stopPlayback, hc]

theorem stopPlayback_audioBufferCache (b : Bool) (s : AppState) :
    (stopPlayback b s).audioBufferCache = s.audioBufferCache := by
  cases hc : s.currentSource <;> cases b <;> simp [stopPlayback, hc]

theorem stopPlayback_lectureUi (b : Bool) (s : AppState) :
    (stopPlayback b s).lectureUi = s.lectureUi := by
  cases hc : s.currentSource <;> cases b <;> simp [stopPlayback, hc]

theorem stopPlayback_ctxReady (b : Bool) (s : AppState) :
    (stopPlayback b s).ctxReady = s.ctxReady := by
  cases hc : s.currentSource <;> cases b <;> simp [stopPlayback, hc]

theorem stopPlayback_course (b : Bool) (s : AppState) :
    (stopPlayback b s).course = s.course := by
  cases hc : s.currentSource <;> cases b <;> simp [stopPlayback, hc]

theorem stopPlayback_toasts (b : Bool) (s : AppState) :
    (stopPlayback b s).toasts = s.toasts := by
  cases hc : s.currentSource <;> cases b <;> simp [stopPlayback, hc]

theorem stopPlayback_actualDurations (b : Bool) (s : AppState) :
    (stopPlayback b s).actualDurations = s.actualDurations := by
  cases hc : s.currentSource <;> cases b <;> simp [stopPlayback, hc]

theorem stopPlayback_videoStates (b : Bool) (s : AppState) :
    (stopPlayback b s).videoStates = s.videoStates := by
  cases hc : s.currentSource <;> cases b <;> simp [stopPlayback, hc]

theorem stopPlayback_pollingIntervals (b : Bool) (s : AppState) :
    (stopPlayback b s).pollingIntervals = s.pollingIntervals := by
  cases hc : s.currentSource <;> cases b <;> simp [stopPlayback, hc]

theorem stopPlayback_currentlyPlaying_clear (s : AppState) :
    (stopPlayback true s).currentlyPlaying = none := by
  cases hc : s.currentSource <;> simp [stopPlayback, hc]

theorem stopPlayback_currentlyPlaying_keep (s : AppState) :
    (stopPlayback false s).currentlyPlaying = s.currentlyPlaying := by
  cases hc : s.currentSource <;> simp [stopPlayback, hc]

theorem stopPlayback_player_clear (s : AppState) :
    (stopPlayback true s).player =
      { s.player with isPlaying := false, progress := 0, currentTime := 0,
                      duration := 0, error := none } := by
  cases hc : s.currentSource <;> simp [stopPlayback, hc]

theorem stopPlayback_player_keep (s : AppState) :
    (stopPlayback false s).player = { s.player with isPlaying := false } := by
  cases hc : s.currentSource <;> simp [stopPlayback, hc]

theorem upd_same {α : Type} (f : Nat → Option α) (k : Nat) (v : Option α) :
    upd f k v k = v := by simp [upd]

theorem upd_other {α : Type} (f : Nat → Option α) (k j : Nat) (v : Option α)
    (h : j ≠ k) : upd f k v j = f j := by simp [upd, h]

/-- C6: on a natural end of lecture i in a course of N lectures, when i+1
exists, the auto-advance effect selects lecture i+1 through the
lecture-selection path, triggering on-demand synthesis when its audio is
not yet cached, and ends with lecture i+1 current, playing, its bytes
cached and marked loaded; when i was the last lecture, the effect fully
clears the playback session, leaving the player stopped at progress 0 with
no current lecture. -/
theorem c6_auto_advance (env : Env) (now : ℚ) (s : AppState) (courseTitle : String)
    (lectures : List Lecture) (i : Nat)
    (hc : s.course = some (courseTitle, lectures))
    (hlast : s.lastPlayedIndex = some i)
    (hcur : s.currentlyPlaying = some i)
    (hctx : s.ctxReady = true) :
    (∀ (h : i + 1 < lectures.length) (b64 : String) (buffer : List (List ℚ)),
      s.audioDataCache (i + 1) = none →
      env.synth (lectures.get ⟨i + 1, h⟩).script = some b64 →
      decodeFull b64 = some buffer →
      (autoAdvanceEffect env now s).currentlyPlaying = some (i + 1) ∧
      (autoAdvanceEffect env now s).player.isPlaying = true ∧
      (autoAdvanceEffect env now s).player.isLoading = false ∧
      (autoAdvanceEffect env now s).audioDataCache (i + 1) = some b64 ∧
      (autoAdvanceEffect env now s).audioBufferCache (i + 1) = some buffer ∧
      (autoAdvanceEffect env now s).lectureUi (i + 1) = some AudioState.loaded ∧
      (autoAdvanceEffect env now s).lastPlayedIndex = none) ∧
    (lectures.length = i + 1 →
      (autoAdvanceEffect env now s).player.isPlaying = false ∧
      (autoAdvanceEffect env now s).player.progress = 0 ∧
      (autoAdvanceEffect env now s).currentlyPlaying = none ∧
      (autoAdvanceEffect env now s).lastPlayedIndex = none) := by
  constructor
  · intro h b64 buffer hcache hsyn hdec
    simp only [autoAdvanceEffect, hlast, hc]
    rw [dif_pos h]
    simp only [handleSetLectureToPlay, generateSingleAudio, playAudioFromCache,
      startPlayback, stopPlayback_audioDataCache, stopPlayback_audioBufferCache,
      stopPlayback_lectureUi, stopPlayback_ctxReady, stopPlayback_current,
      stopPlayback_currentlyPlaying_clear, stopPlayback_currentlyPlaying_keep,
      hcur, hctx, hcache, hsyn, hdec, upd_same, Option.some.injEq,
      self_eq_add_right, one_ne_zero, if_false, if_true]
    simp [upd_same, hdec, hsyn, hcache, hcur, hctx, stopPlayback_currentlyPlaying_keep,
      stopPlayback_audioDataCache, stopPlayback_audioBufferCache, stopPlayback_lectureUi,
      stopPlayback_ctxReady, stopPlayback_current]
  · intro hlen
    simp only [autoAdvanceEffect, hlast, hc]
    rw [dif_neg (by omega)]
    simp [stopPlayback_player_clear, stopPlayback_currentlyPlaying_clear]

/-- Witness for C6: in a three-lecture course, the natural end of lecture
0 auto-starts lecture 1 with on-demand synthesis, and the natural end of
the last lecture clears the session. -/
theorem c6_auto_advance_witness :
    (autoAdvanceEffect envOk 0 sPlayed0).currentlyPlaying = some 1 ∧
    (autoAdvanceEffect envOk 0 sPlayed0).player.isPlaying = true ∧
    (autoAdvanceEffect envOk 0 sPlayed0).audioDataCache 1 = some "//8=" ∧
    (autoAdvanceEffect envOk 0 sPlayed0).lectureUi 1 = some AudioState.loaded ∧
    (autoAdvanceEffect envOk 0 sPlayed2).player.isPlaying = false ∧
    (autoAdvanceEffect envOk 0 sPlayed2).player.progress = 0 ∧
    (autoAdvanceEffect envOk 0 sPlayed2).currentlyPlaying = none := by
  have mainA := c6_auto_advance envOk 0 sPlayed0 "Course" [lecA, lecB, lecC] 0
    rfl rfl rfl rfl
  have hA := mainA.1 (by decide) "//8=" [[(-1 : ℚ) / 32768]] rfl rfl rfl
  have mainB := c6_auto_advance envOk 0 sPlayed2 "Course" [lecA, lecB, lecC] 2
    rfl rfl rfl rfl
  have hB := mainB.2 (by decide)
  exact ⟨hA.1, hA.2.1, hA.2.2.2.1, hA.2.2.2.2.2.1, hB.1, hB.2.1, hB.2.2.1⟩

/-- C4 (code bug): the effect that invokes populateAllLectures re-runs on
every course change and its guard only checks the first lecture, so after
the detail merge for lecture 1 lands before the merge for lecture 0 the
guard still holds and a second full pipeline invocation starts; two
invocations append the course-ready toast twice, against the claimed
exactly-one notification. This theorem evaluates the embedded code at that
failing input: the guard holds on the fresh outline, still holds after the
task for index 1 ran, and two invocations produce two ready toasts. -/
theorem c4_retrigger_double_toast :
    populateGuard sOutline2 = true ∧
    populateGuard (populateTask envOk 1 sOutline2) = true ∧
    (populateAll envOk [0, 1] (populateAll envOk [0, 1] sOutline2)).toasts.count
      readyToast = 2 := by
  refine ⟨by decide, by decide, by decide⟩

/-- C9 (code bug): starting a new course generation synchronously clears
every poll timer, every cache, the video job states and the course before
the outline request; but a poll callback already in flight when the
cancellation ran has no staleness check, so when its awaited status call
resolves done-with-URI it writes a ready video state into the fresh
course, instead of being a no-op. -/
theorem c9_stale_poll_callback :
    (handleGenerateCoursePrologue sOldCourse).pollingIntervals 0 = none ∧
    (handleGenerateCoursePrologue sOldCourse).videoStates 0 = none ∧
    (handleGenerateCoursePrologue sOldCourse).audioDataCache 0 = none ∧
    (handleGenerateCoursePrologue sOldCourse).audioBufferCache 0 = none ∧
    (handleGenerateCoursePrologue sOldCourse).course = none ∧
    (pollTickContinuation "K" 0 (.doneWithUri "https://v/1?alt=media")
        (handleGenerateCoursePrologue sOldCourse)).videoStates 0 =
      some (.ready "https://v/1?alt=media&key=K") := by
  refine ⟨by decide, by decide, by decide, by decide, by decide, by decide⟩

/-- C8 counterexample: the claim says that a lecture whose cache entry is
present but whose pipeline state is not loaded gets on-demand synthesis
during export; handleDownloadAll (App.tsx lines 574-634) contains no
synthesis call, and on such a state the export simply resolves the stale
cached bytes through the wait loop and builds the artifact out of them. -/
theorem c8_counterexample_no_synthesis :
    sExportStuck.audioDataCache 0 = some "AAEC" ∧
    sExportStuck.lectureUi 0 = some AudioState.loading ∧
    handleDownloadAll sExportStuck cacheAtPresent [lecB] =
      .ok (pcmToWavBlob [0, 1, 2]) := by
  refine ⟨by decide, by decide, rfl⟩

theorem pollLoopFuel_none (cacheAt : Nat → Option String) (h : ∀ n, cacheAt n = none) :
    ∀ (fuel attempts : Nat), pollLoopFuel fuel cacheAt attempts = none := by
  intro fuel
  induction fuel with
  | zero =>
      intro attempts
      simp [pollLoopFuel, h]
  | succ f ih =>
      intro attempts
      by_cases ha : attempts > 60
      · simp [pollLoopFuel, h, ha]
      · simp [pollLoopFuel, h, ha, ih (attempts + 1)]

theorem exportCollect_timeout (s : AppState) (cacheAt : Nat → Nat → Option String) :
    ∀ (lectures : List Lecture) (off k : Nat) (lec : Lecture),
      lectures[k]? = some lec →
      (∀ j, j < k → (∃ b, s.audioDataCache (off + j) = some b) ∧
        s.lectureUi (off + j) = some AudioState.loaded) →
      (s.audioDataCache (off + k) = none ∨ s.lectureUi (off + k) ≠ some AudioState.loaded) →
      (∀ n, cacheAt (off + k) n = none) →
      exportCollect s cacheAt (lectures.enumFrom off) = .error (timeoutToast lec.title) := by
  intro lectures
  induction lectures with
  | nil =>
      intro off k lec hk
      simp at hk
  | cons l ls ih =>
      intro off k lec hk hbefore hmiss hstuck
      cases k with
      | zero =>
          have hl : l = lec := by simpa using hk
          subst hl
          rw [Nat.add_zero] at hmiss hstuck
          have hwait : exportWait (cacheAt off) = none := by
            unfold exportWait
            exact pollLoopFuel_none (cacheAt off) hstuck 61 0
          simp only [List.enumFrom, exportCollect, exportResolveOne]
          cases hc : s.audioDataCache off with
          | none => simp [hc, hwait]
          | some b =>
              have hm2 : s.lectureUi off ≠ some AudioState.loaded := by
                rcases hmiss with hm | hm
                · rw [hc] at hm
                  exact absurd hm (by simp)
                · exact hm
              simp [hc, if_neg hm2, hwait]
      | succ k2 =>
          obtain ⟨⟨b, hb⟩, hui⟩ := hbefore 0 (Nat.succ_pos k2)
          rw [Nat.add_zero] at hb hui
          have hrest : exportCollect s cacheAt (ls.enumFrom (off + 1)) =
              .error (timeoutToast lec.title) := by
            refine ih (off + 1) k2 lec (by simpa using hk) ?_ ?_ ?_
            · intro j hj
              have := hbefore (j + 1) (by omega)
              rwa [show off + (j + 1) = off + 1 + j by omega] at this
            · have := hmiss
              rwa [show off + (k2 + 1) = off + 1 + k2 by omega] at this
            · intro n
              have := hstuck n
              rwa [show off + (k2 + 1) = off + 1 + k2 by omega] at this
          simp only [List.enumFrom, exportCollect, exportResolveOne, hb, if_pos hui, hrest]
          rfl

/-- C8 (amended): during export, a lecture whose byte-cache entry is
missing, or present but not marked loaded, is waited for on the bounded
one-second poll (the counter test rejects once attempts exceed 60, and a
present-but-not-loaded entry resolves on the first tick instead of
triggering synthesis — handleDownloadAll performs no synthesis call); if
the cache entry never appears during the window, the whole export fails
with the timeout error naming that lecture and produces no artifact. -/
theorem c8_export_timeout (s : AppState) (cacheAt : Nat → Nat → Option String)
    (lectures : List Lecture) (k : Nat) (lec : Lecture)
    (hk : lectures[k]? = some lec)
    (hbefore : ∀ j, j < k → (∃ b, s.audioDataCache j = some b) ∧
      s.lectureUi j = some AudioState.loaded)
    (hmiss : s.audioDataCache k = none ∨ s.lectureUi k ≠ some AudioState.loaded)
    (hstuck : ∀ n, cacheAt k n = none) :
    handleDownloadAll s cacheAt lectures = .error (timeoutToast lec.title) := by
  have hcol : exportCollect s cacheAt (lectures.enumFrom 0) =
      .error (timeoutToast lec.title) := by
    refine exportCollect_timeout s cacheAt lectures 0 k lec hk ?_ ?_ ?_
    · intro j hj
      simpa using hbefore j hj
    · simpa using hmiss
    · simpa using hstuck
  unfold handleDownloadAll
  rw [show lectures.enum = lectures.enumFrom 0 from rfl, hcol]

/-- Witness for the amended C8: a one-lecture course whose audio never
arrives makes the export fail with the timeout error naming that lecture. -/
theorem c8_export_timeout_witness :
    handleDownloadAll emptyState (fun _ _ => none) [lecB] =
      .error (timeoutToast lecB.title) := by
  refine c8_export_timeout emptyState (fun _ _ => none) [lecB] 0 lecB rfl ?_ ?_ ?_
  · intro j hj
    omega
  · exact Or.inl rfl
  · intro n
    rfl

theorem startPlayback_audioDataCache (buffer : List (List ℚ)) (k : Nat) (off now : ℚ)
    (s : AppState) : (startPlayback buffer k off now s).audioDataCache = s.audioDataCache := by
  cases hr : s.ctxReady
  · simp [startPlayback, hr]
  · simp [startPlayback, hr, stopPlayback_audioDataCache]

theorem startPlayback_audioBufferCache (buffer : List (List ℚ)) (k : Nat) (off now : ℚ)
    (s : AppState) : (startPlayback buffer k off now s).audioBufferCache = s.audioBufferCache := by
  cases hr : s.ctxReady
  · simp [startPlayback, hr]
  · simp [startPlayback, hr, stopPlayback_audioBufferCache]

theorem coherent_generateSingleAudio (env : Env) (lec : Lecture) (k : Nat)
    (s : AppState) (h : Coherent s) : Coherent (generateSingleAudio env lec k s).1 := by
  cases hsyn : env.synth lec.script with
  | some b =>
      intro j buf bytes hbuf hbytes
      simp only [generateSingleAudio, hsyn] at hbuf hbytes
      by_cases hj : j = k
      · subst hj
        rw [upd_same] at hbuf
        exact absurd hbuf (by simp)
      · rw [upd_other _ _ _ _ hj] at hbuf hbytes
        exact h j buf bytes hbuf hbytes
  | none =>
      intro j buf bytes hbuf hbytes
      simp only [generateSingleAudio, hsyn] at hbuf hbytes
      exact h j buf bytes hbuf hbytes

theorem coherent_playAudioFromCache (k : Nat) (now : ℚ) (s : AppState)
    (h : Coherent s) : Coherent (playAudioFromCache k now s).1 := by
  cases hbufc : s.audioBufferCache k with
  | some buffer =>
      intro j buf bytes hbuf hbytes
      simp only [playAudioFromCache, hbufc, startPlayback_audioDataCache,
        startPlayback_audioBufferCache] at hbuf hbytes
      exact h j buf bytes hbuf hbytes
  | none =>
      cases hbytes0 : s.audioDataCache k with
      | none =>
          intro j buf bytes hbuf hbytes
          simp only [playAudioFromCache, hbufc, hbytes0] at hbuf hbytes
          exact h j buf bytes hbuf hbytes
      | some b64 =>
          cases hdec : decodeFull b64 with
          | none =>
              intro j buf bytes hbuf hbytes
              simp only [playAudioFromCache, hbufc, hbytes0, hdec] at hbuf hbytes
              exact h j buf bytes hbuf hbytes
          | some buffer =>
              intro j buf bytes hbuf hbytes
              simp only [playAudioFromCache, hbufc, hbytes0, hdec,
                startPlayback_audioDataCache, startPlayback_audioBufferCache]
                at hbuf hbytes
              by_cases hj : j = k
              · subst hj
                rw [upd_same] at hbuf
                rw [hbytes0] at hbytes
                have hb : buffer = buf := by simpa using hbuf
                have hx : b64 = bytes := by simpa using hbytes
                rw [← hx, ← hb]
                exact hdec
              · rw [upd_other _ _ _ _ hj] at hbuf
                exact h j buf bytes hbuf hbytes

theorem coherent_handleUpdateLecture (env : Env) (k : Nat) (updated : Lecture)
    (s : AppState) (h : Coherent s) : Coherent (handleUpdateLecture env k updated s) := by
  cases hc : s.course with
  | none => simpa [handleUpdateLecture, hc] using h
  | some p =>
      obtain ⟨courseTitle, lectures⟩ := p
      cases hget : lectures[k]? with
      | none => simpa [handleUpdateLecture, hc, hget] using h
      | some oldLec =>
          by_cases hne : oldLec.script ≠ updated.script
          · have hmid : Coherent
                { s with
                  course := some (courseTitle, lectures.set k updated),
                  audioDataCache := upd s.audioDataCache k none,
                  audioBufferCache := upd s.audioBufferCache k none,
                  actualDurations := upd s.actualDurations k none,
                  videoStates := upd s.videoStates k none } := by
              intro j buf bytes hbuf hbytes
              dsimp only at hbuf hbytes
              by_cases hj : j = k
              · subst hj
                rw [upd_same] at hbuf
                exact absurd hbuf (by simp)
              · simp only [upd_other _ _ _ _ hj] at hbuf hbytes
                exact h j buf bytes hbuf hbytes
            have := coherent_generateSingleAudio env updated k _ hmid
            simpa [handleUpdateLecture, hc, hget, if_pos hne] using this
          · simp only [handleUpdateLecture, hc, hget, if_neg hne]
            intro j buf bytes hbuf hbytes
            exact h j buf bytes hbuf hbytes

theorem coherent_prologue (s : AppState) : Coherent (handleGenerateCoursePrologue s) := by
  intro j buf bytes hbuf hbytes
  simp [handleGenerateCoursePrologue] at hbuf

theorem coherent_populateTask (env : Env) (k : Nat) (s : AppState) (h : Coherent s)
    (hbufk : s.audioBufferCache k = none) : Coherent (populateTask env k s) := by
  cases hc : s.course with
  | none => simpa [populateTask, hc] using h
  | some p =>
      obtain ⟨courseTitle, lectures⟩ := p
      cases hget : lectures[k]? with
      | none => simpa [populateTask, hc, hget] using h
      | some lec =>
          cases hdet : env.details k with
          | none =>
              intro j buf bytes hbuf hbytes
              simp only [populateTask, hc, hget, hdet] at hbuf hbytes
              exact h j buf bytes hbuf hbytes
          | some d =>
              cases hsyn : env.synth d.script with
              | none =>
                  intro j buf bytes hbuf hbytes
                  simp only [populateTask, hc, hget, hdet, hsyn] at hbuf hbytes
                  exact h j buf bytes hbuf hbytes
              | some b64 =>
                  intro j buf bytes hbuf hbytes
                  simp only [populateTask, hc, hget, hdet, hsyn] at hbuf hbytes
                  by_cases hj : j = k
                  · subst hj
                    rw [hbufk] at hbuf
                    exact absurd hbuf (by simp)
                  · rw [upd_other _ _ _ _ hj] at hbytes
                    exact h j buf bytes hbuf hbytes

/-- C10 (amended): the coherence invariant is preserved by every cache
writer of the claim plus course regeneration: generateSingleAudio stores
bytes and deletes the decoded buffer together, playAudioFromCache only
creates a buffer by decoding the currently cached bytes, script-edit
invalidation deletes both caches before re-synthesizing, regeneration
empties both, and the pipeline task store preserves coherence whenever no
decoded buffer exists for its index beforehand (the store itself performs
no buffer delete, which is the corrected part of the claim). -/
theorem c10_cache_coherence (s : AppState) (env : Env) (k : Nat)
    (lec updated : Lecture) (now : ℚ) (h : Coherent s) :
    Coherent (generateSingleAudio env lec k s).1 ∧
    Coherent (playAudioFromCache k now s).1 ∧
    Coherent (handleUpdateLecture env k updated s) ∧
    Coherent (handleGenerateCoursePrologue s) ∧
    (s.audioBufferCache k = none → Coherent (populateTask env k s)) :=
  ⟨coherent_generateSingleAudio env lec k s h,
   coherent_playAudioFromCache k now s h,
   coherent_handleUpdateLecture env k updated s h,
   coherent_prologue s,
   fun hbufk => coherent_populateTask env k s h hbufk⟩

/-- Witness for the amended C10 at the initial state, which is coherent. -/
theorem c10_cache_coherence_witness :
    Coherent (generateSingleAudio envOk lecA 0 emptyState).1 ∧
    Coherent (playAudioFromCache 0 0 emptyState).1 ∧
    Coherent (handleUpdateLecture envOk 0 lecA emptyState) ∧
    Coherent (handleGenerateCoursePrologue emptyState) ∧
    Coherent (populateTask envOk 0 emptyState) := by
  have h0 : Coherent emptyState := by
    intro j buf bytes hbuf hbytes
    simp [emptyState] at hbuf
  have main := c10_cache_coherence emptyState envOk 0 lecA lecA 0 h0
  exact ⟨main.1, main.2.1, main.2.2.1, main.2.2.2.1, main.2.2.2.2 rfl⟩

/-- C10 counterexample: the pipeline task byte store does not delete an
existing decoded buffer for its index: starting from a state where both
caches hold entries for lecture 0, the task overwrites the bytes and
leaves the stale buffer in place, and the new bytes no longer decode to
the cached buffer. -/
theorem c10_counterexample_populate_store :
    (populateTask envNew 0 sBothCaches).audioDataCache 0 = some "BBBB" ∧
    (populateTask envNew 0 sBothCaches).audioBufferCache 0 = some [[(1 : ℚ) / 2]] ∧
    decodeFull "BBBB" ≠ some [[(1 : ℚ) / 2]] := by
  refine ⟨rfl, rfl, ?_⟩
  have hnone : decodeFull "BBBB" = none := rfl
  rw [hnone]
  simp
